import Mathlib

/-!
# Verification of the Vektor animation engine core

Shallow embedding of the Vektor scroll-animation engine
(`AttributeParser`, `BaseAnimation`, `FadeInAnimation`, `ParallaxAnimation`,
`AnimationManager`) together with proofs settling the frozen claims about it.

Conventions of the embedding:
* DOM elements are records of an identity, an ordered attribute list and a
  class list.
* JavaScript attribute values after coercion are the inductive `AttrValue`
  (boolean, number, string, structured/JSON).  Numbers are modelled as `ℚ`:
  every number produced by the engine's own coercion is a finite decimal.
  JavaScript `NaN` is modelled as `none` in `Option ℚ` where it can arise.
* `JSON.parse` success is abstracted by a predicate `jsonOk : String → Bool`;
  a successfully parsed structured value is identified by its source text
  (no downstream code of the engine inspects the structure).
-/

namespace Vektor

deriving instance DecidableEq for Except

/-- A parsed attribute value: boolean, number, plain string, or structured
(JSON) data.  A structured value is identified by the source text that
parsed successfully. -/
inductive AttrValue where
  | bool : Bool → AttrValue
  | num : ℚ → AttrValue
  | str : String → AttrValue
  | structured : String → AttrValue
deriving DecidableEq, Repr

/-- JavaScript truthiness of an `AttrValue` (objects and arrays are always
truthy). -/
def truthy : AttrValue → Bool
  | .bool b => b
  | .num q => q != 0
  | .str s => s != ""
  | .structured _ => true

/-- `s.startsWith pre`, computed on the character lists. -/
def strStartsWith (s pre : String) : Bool :=
  pre.data.isPrefixOf s.data

/-- `s.endsWith suf`, computed on the character lists. -/
def strEndsWith (s suf : String) : Bool :=
  suf.data.isSuffixOf s.data

/-- `s.substring(n)` / `s.drop n`, computed on the character lists. -/
def strDrop (s : String) (n : ℕ) : String :=
  String.mk (s.data.drop n)

/-- `s.trim()`: strip whitespace from both ends, computed on the
character lists. -/
def strTrim (s : String) : String :=
  String.mk (((s.data.dropWhile Char.isWhitespace).reverse.dropWhile
    Char.isWhitespace).reverse)

/-- Numeric value of a list of decimal digit characters. -/
def digitsVal (l : List Char) : ℕ :=
  l.foldl (fun a c => 10 * a + (c.toNat - 48)) 0

/-- Exact division of a rational by a natural constant, in a form the
kernel evaluates (`ratDivNat_eq_div` identifies it with `q / c`). -/
def ratDivNat (q : ℚ) (c : ℕ) : ℚ :=
  mkRat q.num (q.den * c)

/-- Does the string match the source's numeric pattern, a full match of
regular expression caret dash? digits+ (dot digits+)? dollar. -/
def decMatchAux (l : List Char) : Bool :=
  let p := l.span Char.isDigit
  decide (p.1 ≠ []) &&
    (match p.2 with
     | [] => true
     | '.' :: fs => decide (fs ≠ []) && fs.all Char.isDigit
     | _ => false)

/-- Full-string match of the signed decimal pattern used by
`parseAttributeValue`. -/
def decMatch (s : String) : Bool :=
  match s.data with
  | '-' :: l => decMatchAux l
  | l => decMatchAux l

/-- Value of a string matching `decMatchAux` (digits with an optional
fraction part), as the exact rational `intPart.fracPart`. -/
def decValueAux (l : List Char) : ℚ :=
  let p := l.span Char.isDigit
  match p.2 with
  | '.' :: fs =>
    mkRat (digitsVal p.1 * 10 ^ fs.length + digitsVal fs) (10 ^ fs.length)
  | _ => (digitsVal p.1 : ℚ)

/-- `parseFloat` on a string that fully matches the signed decimal pattern
(exact, since such strings denote finite decimals). -/
def decValue (s : String) : ℚ :=
  match s.data with
  | '-' :: l => - decValueAux l
  | l => decValueAux l

/-- `q * 10` in a form the kernel evaluates (the library multiplication
is irreducible). -/
def ratMulTen (q : ℚ) : ℚ := mkRat (q.num * 10) q.den

/-- `q - d` for an integer `d`, in a form the kernel evaluates. -/
def ratSubInt (q : ℚ) (d : ℤ) : ℚ := mkRat (q.num - d * q.den) q.den

/-- `|q|`, in a form the kernel evaluates. -/
def ratAbs (q : ℚ) : ℚ := if q < 0 then -q else q

/-- Digits of the fractional part of `q ∈ [0,1)`, with fuel. -/
def fracDigits : ℚ → ℕ → List Char
  | _, 0 => []
  | q, n + 1 =>
    if q = 0 then []
    else
      let q10 := ratMulTen q
      let d := q10.floor
      Char.ofNat (48 + d.toNat) :: fracDigits (ratSubInt q10 d) n

/-- JavaScript number-to-string rendering, restricted to the finite
decimals the engine actually produces. -/
def numToString (q : ℚ) : String :=
  let a := ratAbs q
  let ip := a.floor.toNat
  let fp := ratSubInt a ip
  let core := toString ip ++ (if fp = 0 then "" else "." ++ String.mk (fracDigits fp 30))
  if q < 0 then "-" ++ core else core

/-- A parsed JSON value (the result of a successful `JSON.parse`). -/
inductive JsonVal where
  | null : JsonVal
  | bool : Bool → JsonVal
  | num : ℚ → JsonVal
  | str : String → JsonVal
  | arr : List JsonVal → JsonVal
  | obj : List (String × JsonVal) → JsonVal

/-- JSON insignificant whitespace (space, tab, line feed, carriage
return). -/
def jsonWs (l : List Char) : List Char :=
  l.dropWhile (fun c => c = ' ' ∨ c = '\t' ∨ c = '\n' ∨ c = '\r')

/-- Value of one hexadecimal digit. -/
def jsonHexDigit (c : Char) : Option ℕ :=
  if c.isDigit then some (c.toNat - 48)
  else if 'a' ≤ c ∧ c ≤ 'f' then some (c.toNat - 87)
  else if 'A' ≤ c ∧ c ≤ 'F' then some (c.toNat - 55)
  else none

/-- JSON string body (after the opening quote): content characters and
escapes up to the closing quote, returning the decoded characters and the
remaining input.  Control characters are rejected; a `\u` escape decodes
its code point. -/
def jsonParseStrAux : List Char → Option (List Char × List Char)
  | [] => none
  | '"' :: rest => some ([], rest)
  | '\\' :: rest =>
    match rest with
    | '"' :: r => (jsonParseStrAux r).map (fun p => ('"' :: p.1, p.2))
    | '\\' :: r => (jsonParseStrAux r).map (fun p => ('\\' :: p.1, p.2))
    | '/' :: r => (jsonParseStrAux r).map (fun p => ('/' :: p.1, p.2))
    | 'b' :: r => (jsonParseStrAux r).map (fun p => ('\x08' :: p.1, p.2))
    | 'f' :: r => (jsonParseStrAux r).map (fun p => ('\x0c' :: p.1, p.2))
    | 'n' :: r => (jsonParseStrAux r).map (fun p => ('\n' :: p.1, p.2))
    | 'r' :: r => (jsonParseStrAux r).map (fun p => ('\x0d' :: p.1, p.2))
    | 't' :: r => (jsonParseStrAux r).map (fun p => ('\t' :: p.1, p.2))
    | 'u' :: a :: b :: c :: d :: r =>
      match jsonHexDigit a, jsonHexDigit b, jsonHexDigit c, jsonHexDigit d with
      | some ha, some hb, some hc, some hd =>
        (jsonParseStrAux r).map
          (fun p => (Char.ofNat (((ha * 16 + hb) * 16 + hc) * 16 + hd) :: p.1, p.2))
      | _, _, _, _ => none
    | _ => none
  | c :: rest =>
    if c.toNat < 32 then none
    else (jsonParseStrAux rest).map (fun p => (c :: p.1, p.2))

/-- A JSON number: optional minus, integer part (`0` or a nonzero-led
digit run), optional fraction, optional exponent; its exact rational
value and the remaining input. -/
def jsonParseNumber (l : List Char) : Option (ℚ × List Char) :=
  let sl : Bool × List Char :=
    match l with
    | '-' :: r => (true, r)
    | _ => (false, l)
  let ipart : Option (List Char × List Char) :=
    match sl.2 with
    | '0' :: r => some (['0'], r)
    | c :: r =>
      if c.isDigit then
        let p := r.span Char.isDigit
        some (c :: p.1, p.2)
      else none
    | [] => none
  match ipart with
  | none => none
  | some (ds, rest1) =>
    let fpartOpt : Option (List Char × List Char) :=
      match rest1 with
      | '.' :: r2 =>
        let f := r2.span Char.isDigit
        if f.1 = [] then none else some (f.1, f.2)
      | _ => some ([], rest1)
    match fpartOpt with
    | none => none
    | some fpart =>
      let epart : Option (Bool × ℕ × List Char) :=
        match fpart.2 with
        | 'e' :: r3 | 'E' :: r3 =>
          let se : Bool × List Char :=
            match r3 with
            | '-' :: r4 => (true, r4)
            | '+' :: r4 => (false, r4)
            | _ => (false, r3)
          let ed := se.2.span Char.isDigit
          if ed.1 = [] then none else some (se.1, digitsVal ed.1, ed.2)
        | r3 => some (false, 0, r3)
      match epart with
      | none => none
      | some (eneg, ev, rest3) =>
        let m : ℕ := digitsVal ds * 10 ^ fpart.1.length + digitsVal fpart.1
        let up : ℕ := if eneg then 0 else ev
        let down : ℕ := fpart.1.length + (if eneg then ev else 0)
        let n : ℤ := (m * 10 ^ up : ℕ)
        some (mkRat (if sl.1 then -n else n) (10 ^ down), rest3)

mutual

/-- One JSON value at the head of the input (leading whitespace already
stripped), with the remaining input.  The fuel bounds nesting depth. -/
def jsonParseVal : ℕ → List Char → Option (JsonVal × List Char)
  | 0, _ => none
  | fuel + 1, l =>
    match l with
    | 'n' :: 'u' :: 'l' :: 'l' :: r => some (.null, r)
    | 't' :: 'r' :: 'u' :: 'e' :: r => some (.bool true, r)
    | 'f' :: 'a' :: 'l' :: 's' :: 'e' :: r => some (.bool false, r)
    | '"' :: r => (jsonParseStrAux r).map (fun p => (.str (String.mk p.1), p.2))
    | '[' :: r =>
      match jsonWs r with
      | ']' :: r2 => some (.arr [], r2)
      | r1 =>
        match jsonParseArrItems fuel r1 with
        | some (items, r2) => some (.arr items, r2)
        | none => none
    | '\x7b' :: r =>
      match jsonWs r with
      | '\x7d' :: r2 => some (.obj [], r2)
      | r1 =>
        match jsonParseObjItems fuel r1 with
        | some (items, r2) => some (.obj items, r2)
        | none => none
    | _ => (jsonParseNumber l).map (fun p => (.num p.1, p.2))

/-- Comma-separated array items up to the closing bracket. -/
def jsonParseArrItems : ℕ → List Char → Option (List JsonVal × List Char)
  | 0, _ => none
  | fuel + 1, l =>
    match jsonParseVal fuel (jsonWs l) with
    | none => none
    | some (v, r) =>
      match jsonWs r with
      | ',' :: r2 =>
        match jsonParseArrItems fuel r2 with
        | some (vs, r3) => some (v :: vs, r3)
        | none => none
      | ']' :: r2 => some ([v], r2)
      | _ => none

/-- Comma-separated `"key": value` members up to the closing brace. -/
def jsonParseObjItems : ℕ → List Char → Option (List (String × JsonVal) × List Char)
  | 0, _ => none
  | fuel + 1, l =>
    match jsonWs l with
    | '"' :: r =>
      match jsonParseStrAux r with
      | none => none
      | some (key, r1) =>
        match jsonWs r1 with
        | ':' :: r2 =>
          match jsonParseVal fuel (jsonWs r2) with
          | none => none
          | some (v, r3) =>
            match jsonWs r3 with
            | ',' :: r4 =>
              match jsonParseObjItems fuel r4 with
              | some (kvs, r5) => some ((String.mk key, v) :: kvs, r5)
              | none => none
            | '\x7d' :: r4 => some ([(String.mk key, v)], r4)
            | _ => none
        | _ => none
    | _ => none

end

/-- `JSON.parse` on a whole string: one value surrounded by optional
whitespace. -/
def jsonParseText (s : String) : Option JsonVal :=
  match jsonParseVal (s.data.length + 1) (jsonWs s.data) with
  | some (v, rest) => if jsonWs rest = [] then some v else none
  | none => none

mutual

/-- JavaScript `String()` of a parsed JSON value: an array renders as the
comma-join of its rendered elements (`Array.prototype.toString`), a plain
object as `[object Object]`. -/
def jsStringJson : JsonVal → String
  | .null => "null"
  | .bool true => "true"
  | .bool false => "false"
  | .num q => numToString q
  | .str s => s
  | .obj _ => "[object Object]"
  | .arr l => jsStringJsonList l

/-- The comma-join of rendered array elements; `null` renders empty
inside a join. -/
def jsStringJsonList : List JsonVal → String
  | [] => ""
  | [.null] => ""
  | [v] => jsStringJson v
  | .null :: t => "," ++ jsStringJsonList t
  | v :: t => jsStringJson v ++ "," ++ jsStringJsonList t

end

/-- JavaScript `String(v)` / `v.toString()` conversion of an attribute
value.  A structured value renders as JavaScript renders the parsed JSON
value (`[object Object]` for an object, the comma-join of elements for an
array); a structured value whose text does not re-parse — impossible when
the ambient parse predicate is genuine JSON parsing — keeps its source
text. -/
def jsString : AttrValue → String
  | .bool true => "true"
  | .bool false => "false"
  | .num q => numToString q
  | .str s => s
  | .structured s =>
    match jsonParseText s with
    | some v => jsStringJson v
    | none => s

/-- `a || b` on attribute values (JavaScript or-with-default). -/
def jsOr (v : Option AttrValue) (d : AttrValue) : AttrValue :=
  match v with
  | some w => if truthy w then w else d
  | none => d

/-- Kebab-case to camelCase on a character list: the global regex replaces
each dash followed by a lowercase letter with that letter uppercased. -/
def camelCaseAux : List Char → List Char
  | [] => []
  | '-' :: c :: rest =>
    if c.isLower then c.toUpper :: camelCaseAux rest
    else '-' :: camelCaseAux (c :: rest)
  | c :: rest => c :: camelCaseAux rest

/-- `AttributeParser.camelCase`. -/
def camelCase (s : String) : String :=
  String.mk (camelCaseAux s.data)

/-- `AttributeParser.parseAttributeValue`, parameterised by the abstract
JSON-parse success predicate. -/
def parseAttributeValue (jsonOk : String → Bool) (value : String) : AttrValue :=
  if value = "" || value = "true" then .bool true
  else if value = "false" then .bool false
  else if decMatch value then .num (decValue value)
  else if (strStartsWith value "\x7b" && strEndsWith value "\x7d")
      || (strStartsWith value "[" && strEndsWith value "]") then
    if jsonOk value then .structured value else .str value
  else .str value

/-- A concrete JSON-parse predicate for evaluating the model on inputs whose
coercion never reaches the structured branch. -/
def noJson : String → Bool := fun _ => false

/-- The genuine `JSON.parse` success predicate. -/
def jsonParses : String → Bool := fun s => (jsonParseText s).isSome

/-- A DOM attribute: name and raw string value. -/
structure DomAttr where
  name : String
  value : String
deriving DecidableEq, Repr

/-- A DOM element: an identity, its attributes in document order, and its
class list. -/
structure HTMLElement where
  id : ℕ
  attrs : List DomAttr
  classes : List String
deriving DecidableEq, Repr

/-- `element.getAttribute(name)` (`null` when absent). -/
def getAttribute (e : HTMLElement) (n : String) : Option String :=
  (e.attrs.find? (fun a => a.name = n)).map DomAttr.value

/-- `element.hasAttribute(name)`. -/
def hasAttribute (e : HTMLElement) (n : String) : Bool :=
  e.attrs.any (fun a => a.name = n)

section Assoc

variable {α β : Type} [DecidableEq α]

/-- Read a key of a JavaScript object / `Map`, modelled as an association
list in insertion order (`undefined`/absent is `none`). -/
def assocGet (m : List (α × β)) (k : α) : Option β :=
  (m.find? (fun p => p.1 = k)).map Prod.snd

/-- Assign a key: overwrite the existing binding in place, else append. -/
def assocSet (m : List (α × β)) (k : α) (v : β) : List (α × β) :=
  if m.any (fun p => p.1 = k) then
    m.map (fun p => if p.1 = k then (k, v) else p)
  else m ++ [(k, v)]

/-- Reading back an assigned key. -/
theorem assocGet_set_self (m : List (α × β)) (k : α) (v : β) :
    assocGet (assocSet m k v) k = some v := by
  induction m with
  | nil => simp [assocGet, assocSet]
  | cons p t ih =>
    by_cases hp : p.1 = k
    · simp [assocGet, assocSet, hp, List.find?]
    · by_cases ht : t.any (fun q => q.1 = k)
      · have h1 : assocSet (p :: t) k v = p :: t.map (fun q => if q.1 = k then (k, v) else q) := by
          simp [assocSet, hp, ht]
        have h2 : assocSet t k v = t.map (fun q => if q.1 = k then (k, v) else q) := by
          simp [assocSet, ht]
        rw [h1]
        simpa [assocGet, List.find?, hp, h2] using ih
      · have h1 : assocSet (p :: t) k v = p :: (t ++ [(k, v)]) := by
          simp [assocSet, hp, ht]
        have h2 : assocSet t k v = t ++ [(k, v)] := by
          simp [assocSet, ht]
        rw [h1]
        simpa [assocGet, List.find?, hp, h2] using ih

/-- Assigning one key does not change another. -/
theorem assocGet_set_ne (m : List (α × β)) (k k' : α) (v : β) (h : k' ≠ k) :
    assocGet (assocSet m k' v) k = assocGet m k := by
  induction m with
  | nil => simp [assocGet, assocSet, h]
  | cons p t ih =>
    by_cases ha : (p :: t).any (fun q => q.1 = k')
    · have h1 : assocSet (p :: t) k' v
          = (if p.1 = k' then (k', v) else p) :: t.map (fun q => if q.1 = k' then (k', v) else q) := by
        simp [assocSet, ha]
      rw [h1]
      by_cases hp : p.1 = k'
      · have hpk : ¬ p.1 = k := by rw [hp]; exact h
        rw [if_pos hp]
        by_cases ht : t.any (fun q => q.1 = k')
        · have h2 : assocSet t k' v = t.map (fun q => if q.1 = k' then (k', v) else q) := by
            simp [assocSet, ht]
          simpa [assocGet, List.find?, h, hpk, h2] using ih
        · have hmap : t.map (fun q => if q.1 = k' then (k', v) else q) = t := by
            conv_rhs => rw [← List.map_id t]
            apply List.map_congr_left
            intro q hq
            have hq' : ¬ q.1 = k' := by
              intro hc
              exact absurd (List.any_eq_true.mpr ⟨q, hq, by simp [hc]⟩) ht
            simp [hq']
          simp [assocGet, List.find?, h, hpk, hmap]
      · rw [if_neg hp]
        have ht : t.any (fun q => q.1 = k') := by
          rcases List.any_eq_true.mp ha with ⟨q, hq, hq'⟩
          rcases List.mem_cons.mp hq with hq0 | hq1
          · exact absurd (by simpa [hq0] using hq') hp
          · exact List.any_eq_true.mpr ⟨q, hq1, hq'⟩
        have h2 : assocSet t k' v = t.map (fun q => if q.1 = k' then (k', v) else q) := by
          simp [assocSet, ht]
        by_cases hpk : p.1 = k
        · simp [assocGet, List.find?, hpk]
        · simpa [assocGet, List.find?, hpk, h2] using ih
    · have h1 : assocSet (p :: t) k' v = p :: (t ++ [(k', v)]) := by
        simp [assocSet, ha]
      rw [h1]
      by_cases hpk : p.1 = k
      · simp [assocGet, List.find?, hpk]
      · have ht : ¬ t.any (fun q => q.1 = k') = true := by
          intro hc
          rcases List.any_eq_true.mp hc with ⟨q, hq, hq'⟩
          exact absurd (List.any_eq_true.mpr ⟨q, List.mem_cons_of_mem p hq, hq'⟩) ha
        have h2 : assocSet t k' v = t ++ [(k', v)] := by
          simp [assocSet, ht]
        simpa [assocGet, List.find?, hpk, h2] using ih

end Assoc

/-- An option record: a JavaScript object modelled as an association list in
insertion order. -/
abbrev Options := List (String × AttrValue)

/-- Read an option (`undefined` when absent). -/
def getOpt (o : Options) (k : String) : Option AttrValue :=
  assocGet o k

/-- Assign an option: overwrite the existing binding in place, else append. -/
def setOpt (o : Options) (k : String) (v : AttrValue) : Options :=
  assocSet o k v

/-- `delete options[k]`. -/
def delOpt (o : Options) (k : String) : Options :=
  o.filter (fun p => p.1 ≠ k)

/-- Global configuration (`AnimationConfig` in `types.ts`); the optional
`defaultAnimation` is `none` when the key is absent. -/
structure AnimationConfig where
  attributeName : String
  defaultAnimation : Option String
  useDataAttributeFallback : Bool
deriving DecidableEq, Repr

/-- `DEFAULT_CONFIG` from `types.ts`. -/
def DEFAULT_CONFIG : AnimationConfig :=
  { attributeName := "kw", defaultAnimation := some "fade-in",
    useDataAttributeFallback := false }

/-- The parser's built-in common-attribute table, in source order:
`(attributeSuffix, optionName)` pairs. -/
def commonAttributes : List (String × String) :=
  [("duration", "duration"), ("delay", "delay"), ("repeat", "repeat"),
   ("speed", "speed"), ("direction", "direction"), ("easing", "easing"),
   ("class", "class"), ("from", "from"), ("to", "to"),
   ("start", "start"), ("end", "end"), ("inview", "inview")]

/-- The parser's built-in module-value shorthand table. -/
def moduleValueMappings : List (String × String) :=
  [("parallax", "speed")]

/-- One common-attribute mapping applied by
`AttributeParser.parseCommonAttributes`: the option is set only when the
attribute is present and the option is still unset. -/
def commonStep (jsonOk : String → Bool) (cfg : AnimationConfig)
    (e : HTMLElement) (o : Options) (m : String × String) : Options :=
  match getAttribute e (cfg.attributeName ++ "-" ++ m.1) with
  | some v =>
    if (getOpt o m.2).isNone then setOpt o m.2 (parseAttributeValue jsonOk v)
    else o
  | none => o

/-- `AttributeParser.parseCommonAttributes`: fold the common-attribute
table over the option record. -/
def parseCommonAttributes (jsonOk : String → Bool) (cfg : AnimationConfig)
    (e : HTMLElement) (o : Options) : Options :=
  commonAttributes.foldl (commonStep jsonOk cfg e) o

/-- `AttributeParser.handleModuleValueMapping`: move a `value` option into
the module's shorthand target when the target is unset. -/
def handleModuleValueMapping (moduleName : String) (o : Options) : Options :=
  match (moduleValueMappings.find? (fun p => p.1 = moduleName)).map Prod.snd with
  | some target =>
    if target ≠ "" then
      match getOpt o "value" with
      | some v =>
        if (getOpt o target).isNone then delOpt (setOpt o target v) "value"
        else o
      | none => o
    else o
  | none => o

/-- One iteration of the attribute loop of
`AttributeParser.parseModuleOptions`: module-prefixed, then offset, then
inview attributes, matched on the single attribute's name. -/
def parseModuleOptionsStep (jsonOk : String → Bool) (cfg : AnimationConfig)
    (moduleName : String) (o : Options) (a : DomAttr) : Options :=
  let pfx := cfg.attributeName ++ "-" ++ moduleName
  if strStartsWith a.name pfx then
    setOpt o (camelCase (strDrop a.name (pfx.length + 1)))
      (parseAttributeValue jsonOk a.value)
  else if strStartsWith a.name (cfg.attributeName ++ "-offset-") then
    setOpt o (camelCase (strDrop a.name (cfg.attributeName.length + 1)))
      (parseAttributeValue jsonOk a.value)
  else if a.name = cfg.attributeName ++ "-inview" then
    setOpt o "inview" (parseAttributeValue jsonOk a.value)
  else o

/-- `AttributeParser.parseModuleOptions`: the attribute loop, then the
common-attribute pass, then the module-value shorthand. -/
def parseModuleOptions (jsonOk : String → Bool) (cfg : AnimationConfig)
    (e : HTMLElement) (moduleName : String) : Options :=
  let looped := e.attrs.foldl (parseModuleOptionsStep jsonOk cfg moduleName) []
  handleModuleValueMapping moduleName
    (parseCommonAttributes jsonOk cfg e looped)

/-- `AttributeParser.parseModuleName`: read the primary attribute and
substitute the configured default when the value is the empty string and a
(truthy) default is configured. -/
def parseModuleName (cfg : AnimationConfig) (e : HTMLElement) : Option String :=
  match getAttribute e cfg.attributeName with
  | some s =>
    if s = "" then
      match cfg.defaultAnimation with
      | some d => if d ≠ "" then some d else some s
      | none => some s
    else some s
  | none => none

/-- `ParsedElementOptions`: resolved module name and option record. -/
structure ParsedElementOptions where
  module : String
  options : Options
deriving DecidableEq, Repr

/-- `AttributeParser.parseElementOptions`: `null` when no (truthy) module
name resolves. -/
def parseElementOptions (jsonOk : String → Bool) (cfg : AnimationConfig)
    (e : HTMLElement) : Option ParsedElementOptions :=
  match parseModuleName cfg e with
  | none => none
  | some m =>
    if m = "" then none
    else some ⟨m, parseModuleOptions jsonOk cfg e m⟩

/-- `AttributeParser.hasAnimationAttributes`. -/
def hasAnimationAttributes (cfg : AnimationConfig) (e : HTMLElement) : Bool :=
  hasAttribute e cfg.attributeName

/-! ## BaseAnimation -/

/-- An `IntersectionObserver` threshold: a single ratio or a list of
ratios. -/
inductive Thresh where
  | single : ℚ → Thresh
  | list : List ℚ → Thresh
deriving DecidableEq, Repr

/-- Observer construction options (`observerOptions` on `BaseAnimation`). -/
structure ObserverInit where
  rootMargin : String
  threshold : Thresh
deriving DecidableEq, Repr

/-- An `IntersectionObserver` instance: a distinguishing identity, the
options it was constructed with, and the elements `observe` was called
on. -/
structure Observer where
  id : ℕ
  cfg : ObserverInit
  observed : List HTMLElement
deriving DecidableEq, Repr

/-- Instance state of `BaseAnimation`: the element roster, the (nullable)
observer, the mutable `observerOptions` record, the per-element options
cache, and a counter giving each constructed observer a fresh identity. -/
structure BaseState where
  elements : List HTMLElement
  observer : Option Observer
  observerOptions : ObserverInit
  parsedOptions : List (HTMLElement × Options)
  nextObserverId : ℕ
deriving DecidableEq, Repr

/-- The base module's default threshold list. -/
def defaultThreshold : List ℚ := [0, 1/4, 1/2, 3/4, 1]

/-- A freshly constructed `BaseAnimation`: empty roster, no observer,
`observerOptions` seeded from the instance's `rootMargin` and `threshold`
fields. -/
def initBaseState (rootMargin : String) (threshold : List ℚ) : BaseState :=
  { elements := []
    observer := none
    observerOptions := { rootMargin := rootMargin, threshold := .list threshold }
    parsedOptions := []
    nextObserverId := 0 }

/-- `BaseAnimation` field defaults (`rootMargin = '0px'`,
`threshold = [0, 0.25, 0.5, 0.75, 1]`). -/
def baseDefaultState : BaseState := initBaseState "0px" defaultThreshold

/-- `BaseAnimation.getElementOptions`: empty options when parsing fails. -/
def getElementOptions (jsonOk : String → Bool) (cfg : AnimationConfig)
    (e : HTMLElement) : Options :=
  match parseElementOptions jsonOk cfg e with
  | none => []
  | some p => p.options

/-- Remove the first occurrence of a character
(JavaScript `replace` with a plain-string pattern). -/
def removeFirst (c : Char) : List Char → List Char
  | [] => []
  | x :: xs => if x = c then xs else x :: removeFirst c xs

/-- JavaScript `parseFloat` on a trimmed string (leading signed decimal;
exponent notation does not occur in the engine's inputs and is not
modelled).  `none` is `NaN`. -/
def parseFloatCore (l : List Char) : Option ℚ :=
  let sl : Bool × List Char :=
    match l with
    | '-' :: r => (true, r)
    | '+' :: r => (false, r)
    | _ => (false, l)
  let signed : ℤ → ℤ := fun n => if sl.1 then -n else n
  let p := sl.2.span Char.isDigit
  match p.1, p.2 with
  | [], '.' :: r2 =>
    let f := r2.span Char.isDigit
    if f.1 = [] then none
    else some (mkRat (signed (digitsVal f.1)) (10 ^ f.1.length))
  | [], _ => none
  | ds, '.' :: r2 =>
    let f := r2.span Char.isDigit
    some (mkRat (signed (digitsVal ds * 10 ^ f.1.length + digitsVal f.1)) (10 ^ f.1.length))
  | ds, _ => some (mkRat (signed (digitsVal ds)) 1)

/-- `BaseAnimation.parseInviewPercentage`: strip the first percent sign,
trim, parse; `none` (with a console warning) for non-numeric input or a
ratio outside `[0,1]`. -/
def parseInviewPercentage (value : String) : Option ℚ :=
  if value = "" then none
  else
    let clean := strTrim (String.mk (removeFirst '%' value.data))
    match parseFloatCore clean.data with
    | none => none
    | some p =>
      let t := ratDivNat p 100
      if t < 0 || t > 1 then none else some t

/-- `String(options[k] || '0px')` — the offset option as a string with the
source's falsy-default. -/
def offsetString (o : Options) (k : String) : String :=
  jsString (jsOr (getOpt o k) (.str "0px"))

/-- The observer options computed by `BaseAnimation.initObserver` from the
first roster element's options, starting from the current
`observerOptions` record. -/
def observerCfgFrom (jsonOk : String → Bool) (cfg : AnimationConfig)
    (oo : ObserverInit) (e0 : HTMLElement) : ObserverInit :=
  let o := getElementOptions jsonOk cfg e0
  let rm := offsetString o "offsetTop" ++ " " ++ offsetString o "offsetRight"
      ++ " " ++ offsetString o "offsetBottom" ++ " " ++ offsetString o "offsetLeft"
  let oo1 : ObserverInit := { oo with rootMargin := rm }
  match getOpt o "inview" with
  | some v =>
    if truthy v then
      match parseInviewPercentage (jsString v) with
      | some t => { oo1 with threshold := .single t }
      | none => oo1
    else oo1
  | none => oo1

/-- `BaseAnimation.initObserver`: warn and return when the roster is empty;
otherwise update `observerOptions` from the first roster element and
construct a brand-new observer with those options. -/
def initObserver (jsonOk : String → Bool) (cfg : AnimationConfig)
    (s : BaseState) : BaseState :=
  match s.elements.head? with
  | none => s
  | some e0 =>
    let oo := observerCfgFrom jsonOk cfg s.observerOptions e0
    { s with observerOptions := oo
             observer := some { id := s.nextObserverId, cfg := oo, observed := [] }
             nextObserverId := s.nextObserverId + 1 }

/-- Assign into the per-element options cache (`Map.set`). -/
def setCache (m : List (HTMLElement × Options)) (e : HTMLElement)
    (o : Options) : List (HTMLElement × Options) :=
  assocSet m e o

/-- Read the per-element options cache (`Map.get`). -/
def getCache (m : List (HTMLElement × Options)) (e : HTMLElement) :
    Option Options :=
  assocGet m e

/-- Body of the per-element loop of `BaseAnimation.register`: skip an
element without the primary attribute; otherwise push it on the roster,
cache its parsed options and observe it on the current observer (a no-op
while the observer is still `null`). -/
def registerStep (jsonOk : String → Bool) (cfg : AnimationConfig)
    (s : BaseState) (e : HTMLElement) : BaseState :=
  if hasAnimationAttributes cfg e then
    { s with elements := s.elements ++ [e]
             parsedOptions := setCache s.parsedOptions e (getElementOptions jsonOk cfg e)
             observer := s.observer.map (fun ob => { ob with observed := ob.observed ++ [e] }) }
  else s

/-- `BaseAnimation.register`: normalise to a list, run `initObserver`,
then process each element in order. -/
def register (jsonOk : String → Bool) (cfg : AnimationConfig)
    (s : BaseState) (els : List HTMLElement) : BaseState :=
  els.foldl (registerStep jsonOk cfg) (initObserver jsonOk cfg s)

/-- `BaseAnimation.getOptions`: the cached record, falling back to a fresh
parse. -/
def getOptions (jsonOk : String → Bool) (cfg : AnimationConfig)
    (s : BaseState) (e : HTMLElement) : Options :=
  match getCache s.parsedOptions e with
  | some o => o
  | none => getElementOptions jsonOk cfg e

/-- `BaseAnimation.shouldRepeatAnimation` as a function of the option
record consulted (`!!options.repeat`). -/
def shouldRepeatAnimation (opts : Options) : Bool :=
  match getOpt opts "repeat" with
  | some v => truthy v
  | none => false

/-- `BaseAnimation.destroy`: unobserve everything, disconnect and null the
observer, clear the roster and the options cache. -/
def baseDestroy (s : BaseState) : BaseState :=
  { s with observer := none, elements := [], parsedOptions := [] }

/-! ## FadeInAnimation -/

/-- `FadeInAnimation.activeClass`. -/
def fadeActiveClass : String := "is-animated"

/-- The slice of an element's mutable style and class state the fade
variant touches. -/
structure FadeElemState where
  opacity : Option String
  transition : Option String
  classes : List String
deriving DecidableEq, Repr

/-- Rendering of a possibly-`NaN` number inside a style string. -/
def numToStringN : Option ℚ → String
  | none => "NaN"
  | some q => numToString q

/-- `FadeInAnimation.parseTimeValue` on an attribute value.  Numbers pass
through; string values ending in `s` parse and scale by 1000, other
strings parse as a leading float (the inner `none` is `NaN`).  A value
that is neither string nor number — reachable, since `kw-duration=""`
coerces to boolean `true` — has no `endsWith` method, so the call throws
a `TypeError`, modelled as `Except.error ()`. -/
def parseTimeValueV : AttrValue → Except Unit (Option ℚ)
  | .num q => .ok (some q)
  | .str s =>
    if strEndsWith s "s" then .ok ((parseFloatCore s.data).map (fun q => q * 1000))
    else .ok (parseFloatCore s.data)
  | _ => .error ()

/-- Result of `FadeInAnimation.reset` on one element: the element state,
the pending-animation entry, whether a `transitionend` handler was
installed, and whether the call threw (the `TypeError` from
`parseTimeValue` propagates to the caller after the pending cancellation
but before any style write). -/
structure FadeResetResult where
  visual : FadeElemState
  pending : Option ℕ
  handlerInstalled : Bool
  threw : Bool
deriving DecidableEq, Repr

/-- `FadeInAnimation.reset` on one element: unconditionally cancel a
pending scheduled animation; when `repeat` is truthy, read the starting
opacity, parse the duration (which throws on a boolean or structured
duration value, aborting the reset with the element state untouched),
then set the fade-out transition and the starting opacity and install a
`transitionend` handler that will strip the classes. -/
def fadeReset (opts : Options) (v : FadeElemState) (pending : Option ℕ) :
    FadeResetResult :=
  let _ := pending
  if shouldRepeatAnimation opts then
    let fromV := (getOpt opts "from").getD (.num 0)
    match parseTimeValueV (jsOr (getOpt opts "duration") (.str "0.5s")) with
    | .error _ => ⟨v, none, false, true⟩
    | .ok dur =>
      let easing := jsString (jsOr (getOpt opts "easing") (.str "ease"))
      let trans := "opacity " ++ numToStringN (dur.map (fun q => q / 1000)) ++ "s " ++ easing
      ⟨{ v with transition := some trans, opacity := some (jsString fromV) },
       none, true, false⟩
  else ⟨v, none, false, false⟩

/-- The `transitionend` handler installed by `fadeReset`: remove the active
class and the custom class (when one is configured). -/
def fadeTransitionEnd (opts : Options) (v : FadeElemState) : FadeElemState :=
  let v1 := { v with classes := v.classes.filter (fun c => c ≠ fadeActiveClass) }
  match getOpt opts "class" with
  | some cv =>
    if truthy cv then
      { v1 with classes := v1.classes.filter (fun c => c ≠ jsString cv) }
    else v1
  | none => v1

/-- The guard of `FadeInAnimation.animate`: the fade runs only when the
element is not yet active and has no pending scheduled animation. -/
def fadeAnimateBlocked (v : FadeElemState) (pending : Option ℕ) : Bool :=
  v.classes.contains fadeActiveClass || pending.isSome

/-! ## ParallaxAnimation -/

/-- `ParallaxAnimation.activeClass`. -/
def parallaxActiveClass : String := "is-parallaxed"

/-- The slice of an element's mutable style and class state the parallax
variant touches. -/
structure ParallaxElemState where
  transform : Option String
  classes : List String
deriving DecidableEq, Repr

/-- `ParallaxAnimation.reset`: only when `repeat` is truthy, zero the
transform and remove the active class and the custom class. -/
def parallaxReset (opts : Options) (v : ParallaxElemState) : ParallaxElemState :=
  if shouldRepeatAnimation opts then
    let v1 := { v with transform := some "translate3d(0, 0, 0)"
                       classes := v.classes.filter (fun c => c ≠ parallaxActiveClass) }
    match getOpt opts "class" with
    | some cv =>
      if truthy cv then
        { v1 with classes := v1.classes.filter (fun c => c ≠ jsString cv) }
      else v1
    | none => v1
  else v

/-- JavaScript `Number(string)`: empty after trim is `0`, a full decimal
literal is its value, anything else is `NaN` (hex and exponent forms do
not occur in the engine's inputs and are not modelled). -/
def jsStringToNumber (s : String) : Option ℚ :=
  let t := strTrim s
  if t = "" then some 0
  else if decMatch t then some (decValue t) else none

/-- JavaScript `ToNumber` on an attribute value as used in arithmetic
(`none` is `NaN`; structured values are abstracted as `NaN`). -/
def toNumber : AttrValue → Option ℚ
  | .bool b => some (if b then 1 else 0)
  | .num q => some q
  | .str s => jsStringToNumber s
  | .structured _ => none

/-- The axis a parallax transform translates along. -/
inductive Axis where
  | x
  | y
deriving DecidableEq, Repr

/-- The numeric core of `ParallaxAnimation.applyParallaxEffect`: extract
`speed`, `direction`, `start`, `end` with the source's defaults, compute
`yPos`/`xPos` with the direction multiplier, and report the axis.  `none`
in the second component is `NaN`. -/
def applyParallaxOffset (opts : Options) (cfgStart cfgEnd : ℚ)
    (windowHeight progress : ℚ) : Axis × Option ℚ :=
  let speedV : Option ℚ :=
    match getOpt opts "speed" with
    | some v => toNumber v
    | none => some (1/5)
  let dir : AttrValue := jsOr (getOpt opts "direction") (.str "down")
  let startV : Option ℚ :=
    match getOpt opts "start" with
    | some v => toNumber v
    | none => some cfgStart
  let endV : Option ℚ :=
    match getOpt opts "end" with
    | some v => toNumber v
    | none => some cfgEnd
  let pos : Option ℚ := do
    let sp ← speedV
    let st ← startV
    let en ← endV
    pure (sp * windowHeight * st + progress * sp * windowHeight * en)
  if dir = .str "up" || dir = .str "down" then
    (.y, pos.map (fun p => p * (if dir = .str "up" then -1 else 1)))
  else
    (.x, pos.map (fun p => p * (if dir = .str "left" then -1 else 1)))

/-- The transform string written by `applyParallaxEffect`. -/
def parallaxTransformString (opts : Options) (cfgStart cfgEnd : ℚ)
    (windowHeight progress : ℚ) : String :=
  match applyParallaxOffset opts cfgStart cfgEnd windowHeight progress with
  | (.y, p) => "translate3d(0, " ++ numToStringN p ++ "px, 0)"
  | (.x, p) => "translate3d(" ++ numToStringN p ++ "px, 0, 0)"

/-- The window as seen by `ParallaxAnimation`'s scroll listener handling:
the set of attached scroll-listener function identities, and a counter
producing a fresh identity for each `.bind(this)` call. -/
structure ScrollWorld where
  scrollListeners : List ℕ
  nextFnId : ℕ
deriving DecidableEq, Repr

/-- Parallax instance state around the base state: the scroll-listener
flag and the pending animation-frame id. -/
structure ParallaxState where
  base : BaseState
  scrollListenerAttached : Bool
  rafId : Option ℕ
deriving DecidableEq, Repr

/-- A fresh `ParallaxAnimation` instance.  The subclass constructor body
rebinds the `rootMargin` and `threshold` fields (to
`'100px 0px -100px 0px'` and `[0, 0.1]`), but the `observerOptions`
record was already built from the base-class field defaults before the
constructor body ran, so the rebinding never reaches the observer
geometry: the instance starts with the base defaults. -/
def initParallaxState : ParallaxState :=
  { base := baseDefaultState
    scrollListenerAttached := false
    rafId := none }

/-- `ParallaxAnimation.register`: run the base registration, then attach
the window scroll listener once, with a freshly bound copy of
`handleScroll` as the handler function. -/
def parallaxRegister (jsonOk : String → Bool) (cfg : AnimationConfig)
    (w : ScrollWorld) (s : ParallaxState) (els : List HTMLElement) :
    ScrollWorld × ParallaxState :=
  let b := register jsonOk cfg s.base els
  if !s.scrollListenerAttached then
    ({ scrollListeners := w.scrollListeners ++ [w.nextFnId]
       nextFnId := w.nextFnId + 1 },
     { s with base := b, scrollListenerAttached := true })
  else (w, { s with base := b })

/-- `ParallaxAnimation.destroy`: base cleanup; then `removeEventListener`
with another freshly bound copy of `handleScroll` (a new function
identity, so only a listener with that identity would be removed), clear
the flag, and cancel the pending animation frame. -/
def parallaxDestroy (w : ScrollWorld) (s : ParallaxState) :
    ScrollWorld × ParallaxState :=
  let b := baseDestroy s.base
  if s.scrollListenerAttached then
    ({ scrollListeners := w.scrollListeners.filter (fun t => t ≠ w.nextFnId)
       nextFnId := w.nextFnId + 1 },
     { base := b, scrollListenerAttached := false, rafId := none })
  else (w, { base := b, scrollListenerAttached := s.scrollListenerAttached, rafId := none })

/-! ## AnimationManager -/

namespace AnimationManager

/-- The public methods defined on the `AnimationManager` class, as declared
in its source. -/
def publicMethods : List String :=
  ["use", "updateConfig", "registerModule", "getModule", "init", "destroy"]

end AnimationManager

/-- What the manager needs to know about a registered module instance to
route elements: the active-class marker its default `isInitialized`
checks. -/
structure ModuleInfo where
  activeClass : String
deriving DecidableEq, Repr

/-- The name-keyed module registry. -/
abbrev Registry := List (String × ModuleInfo)

/-- `this.modules.get(name)`. -/
def lookupModule (r : Registry) (n : String) : Option ModuleInfo :=
  (r.find? (fun p => p.1 = n)).map Prod.snd

/-- `BaseAnimation.isInitialized` (default implementation): the element
carries the module's active class. -/
def moduleIsInitialized (m : ModuleInfo) (e : HTMLElement) : Bool :=
  e.classes.contains m.activeClass

/-- `AnimationManager.isElementInitialized`: delegate to the module when it
exists, else `false`. -/
def isElementInitialized (r : Registry) (e : HTMLElement) (name : String) : Bool :=
  match lookupModule r name with
  | some m => moduleIsInitialized m e
  | none => false

/-- `AnimationManager.findAllAnimationElements`: the document's elements
carrying the primary attribute, in document order. -/
def findAllAnimationElements (cfg : AnimationConfig)
    (doc : List HTMLElement) : List HTMLElement :=
  doc.filter (fun e => hasAttribute e cfg.attributeName)

/-- The `(moduleName, element)` register calls the scan inside
`AnimationManager.init` issues: parse each found element, skip a null
parse, skip an unknown module, and otherwise route — with no
already-initialized check. -/
def initRegistrations (jsonOk : String → Bool) (cfg : AnimationConfig)
    (r : Registry) (doc : List HTMLElement) : List (String × HTMLElement) :=
  (findAllAnimationElements cfg doc).filterMap (fun e =>
    match parseElementOptions jsonOk cfg e with
    | none => none
    | some p =>
      match lookupModule r p.module with
      | some _ => some (p.module, e)
      | none => none)

/-- The `(moduleName, element)` register calls a dynamic re-scan
(`AnimationManager.initDynamicElements`) issues: as in `init`, but an
element the module already reports initialized is skipped. -/
def dynamicRegistrations (jsonOk : String → Bool) (cfg : AnimationConfig)
    (r : Registry) (doc : List HTMLElement) : List (String × HTMLElement) :=
  (findAllAnimationElements cfg doc).filterMap (fun e =>
    match parseElementOptions jsonOk cfg e with
    | none => none
    | some p =>
      match lookupModule r p.module with
      | some m => if moduleIsInitialized m e then none else some (p.module, e)
      | none => none)

/-- Manager state: the registry, the lifecycle flag, the debounce-timer
handle, the mutation-watcher flag, the scheduler's pending timer set with
a fresh-id counter, the shared resize-listener flag, and a log of the
register calls issued. -/
structure ManagerState where
  registry : Registry
  initialized : Bool
  loadTimeout : Option ℕ
  mutationObserverActive : Bool
  pendingTimers : List ℕ
  nextTimerId : ℕ
  resizeAttached : Bool
  registrationLog : List (String × HTMLElement)
deriving DecidableEq, Repr

/-- `AnimationManager.init`: a second call is a no-op; under reduced
motion the initial scan is skipped; the mutation watcher is installed, the
flag set, and a one-shot post-init re-scan timer is scheduled whose handle
is not recorded anywhere. -/
def managerInit (jsonOk : String → Bool) (cfg : AnimationConfig)
    (s : ManagerState) (doc : List HTMLElement) (reducedMotion : Bool) :
    ManagerState :=
  if s.initialized then s
  else
    let s1 :=
      if reducedMotion then s
      else { s with registrationLog :=
              s.registrationLog ++ initRegistrations jsonOk cfg s.registry doc }
    { s1 with mutationObserverActive := true
              initialized := true
              pendingTimers := s1.pendingTimers ++ [s1.nextTimerId]
              nextTimerId := s1.nextTimerId + 1 }

/-- The debounced mutation reaction: clear a pending debounce timer,
schedule a fresh one and record its handle in `loadTimeout`. -/
def scheduleDebounce (s : ManagerState) : ManagerState :=
  let s1 :=
    match s.loadTimeout with
    | some t => { s with pendingTimers := s.pendingTimers.filter (fun x => x ≠ t)
                         loadTimeout := none }
    | none => s
  { s1 with pendingTimers := s1.pendingTimers ++ [s1.nextTimerId]
            loadTimeout := some s1.nextTimerId
            nextTimerId := s1.nextTimerId + 1 }

/-- A dynamic re-scan firing (`initDynamicElements`): a no-op before
`init` and under reduced motion, else it issues the
`dynamicRegistrations` register calls. -/
def managerDynamicRescan (jsonOk : String → Bool) (cfg : AnimationConfig)
    (s : ManagerState) (doc : List HTMLElement) (reducedMotion : Bool) :
    ManagerState :=
  if !s.initialized then s
  else if reducedMotion then s
  else { s with registrationLog :=
          s.registrationLog ++ dynamicRegistrations jsonOk cfg s.registry doc }

/-- `AnimationManager.destroy`: clear the recorded debounce timer (only),
disconnect the mutation watcher, destroy every module and clear the
registry, drop the flag, and release the shared resize listener. -/
def managerDestroy (s : ManagerState) : ManagerState :=
  let s1 :=
    match s.loadTimeout with
    | some t => { s with pendingTimers := s.pendingTimers.filter (fun x => x ≠ t)
                         loadTimeout := none }
    | none => s
  { s1 with mutationObserverActive := false
            registry := []
            initialized := false
            resizeAttached := false }

/-- A manager as constructed (`new AnimationManager(...)`), before `use` /
`init`. -/
def initManagerState : ManagerState :=
  { registry := []
    initialized := false
    loadTimeout := none
    mutationObserverActive := false
    pendingTimers := []
    nextTimerId := 0
    resizeAttached := true
    registrationLog := [] }

/-! ## General lemmas about the embedded operations -/

/-- A set option reads back. -/
theorem getOpt_setOpt_self (o : Options) (k : String) (v : AttrValue) :
    getOpt (setOpt o k v) k = some v :=
  assocGet_set_self o k v

/-- Setting one option does not change another. -/
theorem getOpt_setOpt_ne (o : Options) (k k' : String) (v : AttrValue)
    (h : k' ≠ k) : getOpt (setOpt o k' v) k = getOpt o k :=
  assocGet_set_ne o k k' v h

/-- A common-attribute pass step never changes an option that is already
set. -/
theorem getOpt_commonStep (jsonOk : String → Bool) (cfg : AnimationConfig)
    (e : HTMLElement) (o : Options) (m : String × String) (k : String)
    (h : getOpt o k ≠ none) :
    getOpt (commonStep jsonOk cfg e o m) k = getOpt o k := by
  unfold commonStep
  cases getAttribute e (cfg.attributeName ++ "-" ++ m.1) with
  | none => rfl
  | some v =>
    by_cases hk : m.2 = k
    · have : (getOpt o m.2).isNone = false := by
        rw [hk]
        cases hg : getOpt o k with
        | none => exact absurd hg h
        | some _ => rfl
      simp [this]
    · by_cases hset : (getOpt o m.2).isNone
      · simp only [hset, if_true]
        exact getOpt_setOpt_ne o k m.2 (parseAttributeValue jsonOk v) hk
      · simp [hset]

/-- The whole common-attribute pass never changes an option that is
already set (phases 1–3 beat phase 4). -/
theorem getOpt_parseCommonAttributes (jsonOk : String → Bool)
    (cfg : AnimationConfig) (e : HTMLElement) (o : Options) (k : String)
    (h : getOpt o k ≠ none) :
    getOpt (parseCommonAttributes jsonOk cfg e o) k = getOpt o k := by
  unfold parseCommonAttributes
  generalize commonAttributes = l
  induction l generalizing o with
  | nil => rfl
  | cons m t ih =>
    rw [List.foldl_cons]
    have hstep := getOpt_commonStep jsonOk cfg e o m k h
    rw [ih (commonStep jsonOk cfg e o m) (by rw [hstep]; exact h), hstep]

/-- The register loop appends exactly the attribute-bearing elements to
the roster. -/
theorem foldRegister_elements (jsonOk : String → Bool)
    (cfg : AnimationConfig) (els : List HTMLElement) : ∀ s : BaseState,
    (els.foldl (registerStep jsonOk cfg) s).elements
      = s.elements ++ els.filter (fun e => hasAnimationAttributes cfg e) := by
  induction els with
  | nil => intro s; simp
  | cons e t ih =>
    intro s
    rw [List.foldl_cons, ih]
    by_cases ha : hasAnimationAttributes cfg e
    · simp [registerStep, ha, List.filter_cons]
    · simp [registerStep, ha, List.filter_cons]

/-- The register loop leaves `observerOptions` and the observer-identity
counter untouched. -/
theorem foldRegister_const (jsonOk : String → Bool)
    (cfg : AnimationConfig) (els : List HTMLElement) : ∀ s : BaseState,
    (els.foldl (registerStep jsonOk cfg) s).observerOptions = s.observerOptions
      ∧ (els.foldl (registerStep jsonOk cfg) s).nextObserverId = s.nextObserverId := by
  induction els with
  | nil => intro s; exact ⟨rfl, rfl⟩
  | cons e t ih =>
    intro s
    rw [List.foldl_cons]
    rcases ih (registerStep jsonOk cfg s e) with ⟨h1, h2⟩
    constructor
    · rw [h1]; by_cases ha : hasAnimationAttributes cfg e <;> simp [registerStep, ha]
    · rw [h2]; by_cases ha : hasAnimationAttributes cfg e <;> simp [registerStep, ha]

/-- The register loop makes the current observer (when there is one)
observe exactly the attribute-bearing elements of the call, in order. -/
theorem foldRegister_observer (jsonOk : String → Bool)
    (cfg : AnimationConfig) (els : List HTMLElement) : ∀ s : BaseState,
    (els.foldl (registerStep jsonOk cfg) s).observer
      = s.observer.map (fun ob =>
          { ob with observed := ob.observed ++ els.filter (fun e => hasAnimationAttributes cfg e) }) := by
  induction els with
  | nil =>
    intro s
    cases hobs : s.observer with
    | none => simp [hobs]
    | some ob => simp [hobs]
  | cons e t ih =>
    intro s
    rw [List.foldl_cons, ih]
    by_cases ha : hasAnimationAttributes cfg e
    · cases hobs : s.observer with
      | none => simp [registerStep, ha, hobs]
      | some ob => simp [registerStep, ha, hobs, List.filter_cons]
    · cases hobs : s.observer with
      | none => simp [registerStep, ha, hobs]
      | some ob => simp [registerStep, ha, hobs, List.filter_cons]

/-- The register loop does not touch the cache entry of an element not in
the call. -/
theorem foldRegister_cache_notmem (jsonOk : String → Bool)
    (cfg : AnimationConfig) (els : List HTMLElement) (e : HTMLElement) :
    ∀ s : BaseState, e ∉ els →
    getCache (els.foldl (registerStep jsonOk cfg) s).parsedOptions e
      = getCache s.parsedOptions e := by
  induction els with
  | nil => intro s _; rfl
  | cons a t ih =>
    intro s hmem
    have hne : a ≠ e := fun hc => hmem (by rw [hc]; exact List.mem_cons_self e t)
    have hnt : e ∉ t := fun hc => hmem (List.mem_cons_of_mem a hc)
    rw [List.foldl_cons, ih (registerStep jsonOk cfg s a) hnt]
    by_cases ha : hasAnimationAttributes cfg a
    · simp only [registerStep, ha, if_true]
      exact assocGet_set_ne s.parsedOptions e a (getElementOptions jsonOk cfg a) hne
    · simp [registerStep, ha]

/-- After the register loop, every attribute-bearing element of the call
has its parsed options cached. -/
theorem foldRegister_cache_mem (jsonOk : String → Bool)
    (cfg : AnimationConfig) (els : List HTMLElement) (e : HTMLElement) :
    ∀ s : BaseState, e ∈ els → hasAnimationAttributes cfg e = true →
    getCache (els.foldl (registerStep jsonOk cfg) s).parsedOptions e
      = some (getElementOptions jsonOk cfg e) := by
  induction els with
  | nil => intro s hmem _; exact absurd hmem (List.not_mem_nil e)
  | cons a t ih =>
    intro s hmem ha
    rw [List.foldl_cons]
    by_cases hmt : e ∈ t
    · exact ih (registerStep jsonOk cfg s a) hmt ha
    · have hae : a = e := by
        rcases List.mem_cons.mp hmem with h | h
        · exact h.symm
        · exact absurd h hmt
      rw [foldRegister_cache_notmem jsonOk cfg t e (registerStep jsonOk cfg s a) hmt]
      subst hae
      simp only [registerStep, ha, if_true]
      exact assocGet_set_self s.parsedOptions a (getElementOptions jsonOk cfg a)

/-! ## Claim C5 -/

/-- The value-coercion mapping exactly as the specification words it:
empty string or literal `true` give boolean true; literal `false` gives
boolean false; a string matching the signed decimal pattern gives its
numeric value; a brace- or bracket-delimited string gives parsed
structured data, falling back to the raw string on parse failure; any
other string is kept verbatim. -/
def specValueCoercion (jsonOk : String → Bool) (value : String) : AttrValue :=
  if value = "" ∨ value = "true" then .bool true
  else if value = "false" then .bool false
  else if decMatch value then .num (decValue value)
  else if (strStartsWith value "\x7b" = true ∧ strEndsWith value "\x7d" = true)
      ∨ (strStartsWith value "[" = true ∧ strEndsWith value "]" = true) then
    if jsonOk value then .structured value else .str value
  else .str value

/-- C5: attribute-value coercion is a total function and realises exactly
the case analysis of the specification: empty string and `true` map to
boolean true, `false` to boolean false, signed decimal strings to their
numeric value, brace- or bracket-delimited strings to structured data
with fallback to the original string on parse failure, and every other
string to itself verbatim (checked pointwise for every string and every
JSON parser, together with the specification's own sample inputs). -/
theorem c5_value_coercion_total :
    (∀ (jsonOk : String → Bool) (v : String),
        parseAttributeValue jsonOk v = specValueCoercion jsonOk v)
    ∧ parseAttributeValue noJson "" = .bool true
    ∧ parseAttributeValue noJson "true" = .bool true
    ∧ parseAttributeValue noJson "false" = .bool false
    ∧ parseAttributeValue noJson "3.5" = .num (mkRat 7 2)
    ∧ parseAttributeValue (fun _ => true) "[1,2]" = .structured "[1,2]"
    ∧ parseAttributeValue noJson "[1,2]" = .str "[1,2]"
    ∧ parseAttributeValue noJson "10px" = .str "10px" := by
  refine ⟨?_, by decide, by decide, by decide, by decide, by decide, by decide, by decide⟩
  intro jsonOk v
  unfold parseAttributeValue specValueCoercion
  by_cases h1 : v = "" <;> by_cases h2 : v = "true" <;> by_cases h3 : v = "false" <;>
    simp [h1, h2, h3]

/-! ## Claim C2 -/

/-- C2 counterexample element: module `fade-in`, with the module-scoped
offset attribute written before the plain offset attribute. -/
def c2OffsetElem : HTMLElement :=
  ⟨2, [⟨"kw", "fade-in"⟩, ⟨"kw-fade-in-offset-top", "10px"⟩, ⟨"kw-offset-top", "5px"⟩], []⟩

/-- Element carrying both `kw-fade-in-duration="900"` and
`kw-duration="500"` (the claim's own example). -/
def c2DurationElem : HTMLElement :=
  ⟨3, [⟨"kw", "fade-in"⟩, ⟨"kw-fade-in-duration", "900"⟩, ⟨"kw-duration", "500"⟩], []⟩

/-- C2 counterexample: on an element with `kw-fade-in-offset-top="10px"`
followed by `kw-offset-top="5px"`, the resolved `offsetTop` is `"5px"` —
the offset attribute, a later resolution phase by the claim's ordering,
overwrites the module-scoped attribute, because module-scoped, offset and
inview attributes are resolved in one pass over the attributes in
document order. -/
theorem c2_module_scoped_beaten_by_offset :
    parseElementOptions noJson DEFAULT_CONFIG c2OffsetElem
      = some ⟨"fade-in", parseModuleOptions noJson DEFAULT_CONFIG c2OffsetElem "fade-in"⟩
    ∧ getOpt (parseModuleOptions noJson DEFAULT_CONFIG c2OffsetElem "fade-in") "offsetTop"
      = some (.str "5px")
    ∧ AttrValue.str "5px" ≠ AttrValue.str "10px" := by
  decide

/-- C2 (amended): the attribute-loop phases (module-scoped, offset,
inview) all beat the common-attribute table — the common pass never
overwrites an option that is already set — while among the loop phases
the later attribute in the element's attribute order wins on a collision;
the claim's concrete example still holds: with both
`kw-fade-in-duration="900"` and `kw-duration="500"` the resolved
`duration` is the number 900. -/
theorem c2_precedence_amended :
    (∀ (jsonOk : String → Bool) (cfg : AnimationConfig) (e : HTMLElement)
        (o : Options) (k : String), getOpt o k ≠ none →
        getOpt (parseCommonAttributes jsonOk cfg e o) k = getOpt o k)
    ∧ getOpt (parseModuleOptions noJson DEFAULT_CONFIG c2DurationElem "fade-in") "duration"
      = some (.num 900) := by
  refine ⟨?_, by decide⟩
  intro jsonOk cfg e o k h
  exact getOpt_parseCommonAttributes jsonOk cfg e o k h

/-- Witness for the amended C2 at a concrete input. -/
theorem c2_precedence_amended_witness :
    getOpt (parseCommonAttributes noJson DEFAULT_CONFIG c2DurationElem
        [("duration", AttrValue.num 900)]) "duration" = some (AttrValue.num 900)
    ∧ getOpt (parseModuleOptions noJson DEFAULT_CONFIG c2DurationElem "fade-in") "duration"
      = some (.num 900) := by
  constructor
  · rw [c2_precedence_amended.1 noJson DEFAULT_CONFIG c2DurationElem
      [("duration", AttrValue.num 900)] "duration" (by decide)]
    decide
  · exact c2_precedence_amended.2

/-! ## Claim C4 -/

/-- C4 counterexample registry: the fade module registered under its
default name. -/
def c4Registry : Registry := [("fade-in", ⟨"is-animated"⟩)]

/-- C4 counterexample element: carries the fade module's active class, so
the module reports it as already initialized. -/
def c4Elem : HTMLElement := ⟨4, [⟨"kw", "fade-in"⟩], ["is-animated"]⟩

/-- C4 counterexample: during the `init()` scan an element the module
already reports initialized is still routed to `register` — the
already-initialized guard exists only in the dynamic re-scan path. -/
theorem c4_init_routes_initialized_element :
    ("fade-in", c4Elem) ∈ initRegistrations noJson DEFAULT_CONFIG c4Registry [c4Elem]
    ∧ isElementInitialized c4Registry c4Elem "fade-in" = true
    ∧ dynamicRegistrations noJson DEFAULT_CONFIG c4Registry [c4Elem] = [] := by
  decide

/-- C4 (amended): a dynamic re-scan routes an element to a module's
`register` exactly when the element is in the document with the primary
attribute, parses to that module's name, the module is registered, and
the module does not already report the element initialized; the `init()`
scan routes under the same conditions except that it performs no
already-initialized check.  Unknown module names and null parses are
silently skipped in both scans (they satisfy no routing condition), and
both scans are total functions that throw nothing. -/
theorem c4_routing_amended (jsonOk : String → Bool) (cfg : AnimationConfig)
    (r : Registry) (doc : List HTMLElement) (name : String) (e : HTMLElement) :
    ((name, e) ∈ dynamicRegistrations jsonOk cfg r doc ↔
      e ∈ doc ∧ hasAttribute e cfg.attributeName = true ∧
      ∃ p m, parseElementOptions jsonOk cfg e = some p ∧ p.module = name ∧
        lookupModule r name = some m ∧ moduleIsInitialized m e = false)
    ∧ ((name, e) ∈ initRegistrations jsonOk cfg r doc ↔
      e ∈ doc ∧ hasAttribute e cfg.attributeName = true ∧
      ∃ p, parseElementOptions jsonOk cfg e = some p ∧ p.module = name ∧
        (lookupModule r name).isSome = true) := by
  constructor
  · constructor
    · intro hmem
      rcases List.mem_filterMap.mp hmem with ⟨a, ha, hfa⟩
      rcases List.mem_filter.mp ha with ⟨hadoc, hattr⟩
      cases hp : parseElementOptions jsonOk cfg a with
      | none => simp [hp] at hfa
      | some p =>
        simp only [hp] at hfa
        cases hm : lookupModule r p.module with
        | none => simp [hm] at hfa
        | some m =>
          simp only [hm] at hfa
          by_cases hinit : moduleIsInitialized m a
          · simp [hinit] at hfa
          · simp only [hinit, Bool.false_eq_true, if_false] at hfa
            have h12 : p.module = name ∧ a = e := by simpa using hfa
            rcases h12 with ⟨h1, h2⟩
            subst h2
            exact ⟨hadoc, hattr, p, m, hp, h1, h1 ▸ hm, by simpa using hinit⟩
    · rintro ⟨hadoc, hattr, p, m, hp, hmod, hm, hinit⟩
      apply List.mem_filterMap.mpr
      refine ⟨e, List.mem_filter.mpr ⟨hadoc, hattr⟩, ?_⟩
      simp [hp, hmod, hm, hinit]
  · constructor
    · intro hmem
      rcases List.mem_filterMap.mp hmem with ⟨a, ha, hfa⟩
      rcases List.mem_filter.mp ha with ⟨hadoc, hattr⟩
      cases hp : parseElementOptions jsonOk cfg a with
      | none => simp [hp] at hfa
      | some p =>
        simp only [hp] at hfa
        cases hm : lookupModule r p.module with
        | none => simp [hm] at hfa
        | some m =>
          simp only [hm] at hfa
          have h12 : p.module = name ∧ a = e := by simpa using hfa
          rcases h12 with ⟨h1, h2⟩
          subst h2
          exact ⟨hadoc, hattr, p, hp, h1, by rw [← h1, hm]; rfl⟩
    · rintro ⟨hadoc, hattr, p, hp, hmod, hm⟩
      apply List.mem_filterMap.mpr
      refine ⟨e, List.mem_filter.mpr ⟨hadoc, hattr⟩, ?_⟩
      rcases Option.isSome_iff_exists.mp hm with ⟨m, hm'⟩
      simp [hp, hmod, hm']

/-- Witness for the amended C4 at a concrete input: routing holds in the
dynamic re-scan for a not-yet-initialized element. -/
theorem c4_routing_amended_witness :
    ("fade-in", HTMLElement.mk 5 [⟨"kw", "fade-in"⟩] [])
      ∈ dynamicRegistrations noJson DEFAULT_CONFIG c4Registry
        [HTMLElement.mk 5 [⟨"kw", "fade-in"⟩] []] := by
  apply (c4_routing_amended noJson DEFAULT_CONFIG c4Registry
    [HTMLElement.mk 5 [⟨"kw", "fade-in"⟩] []] "fade-in"
    (HTMLElement.mk 5 [⟨"kw", "fade-in"⟩] [])).1.mpr
  refine ⟨by decide, by decide,
    ⟨"fade-in", parseModuleOptions noJson DEFAULT_CONFIG
      (HTMLElement.mk 5 [⟨"kw", "fade-in"⟩] []) "fade-in"⟩, ⟨"is-animated"⟩,
    by decide, rfl, by decide, by decide⟩

/-! ## Claims C1 and C9: observer creation in `BaseAnimation.register` -/

/-- `register` on an instance with an empty roster and no observer:
`initObserver` hits its empty-roster guard, so no observer is created and
nothing is ever observed; the call's attribute-bearing elements become
the roster, and the observer-geometry record is untouched. -/
theorem register_of_empty_roster (jsonOk : String → Bool)
    (cfg : AnimationConfig) (s : BaseState) (els : List HTMLElement)
    (h1 : s.elements = []) (h2 : s.observer = none) :
    (register jsonOk cfg s els).observer = none
    ∧ (register jsonOk cfg s els).elements
      = els.filter (fun e => hasAnimationAttributes cfg e)
    ∧ (register jsonOk cfg s els).observerOptions = s.observerOptions
    ∧ (register jsonOk cfg s els).nextObserverId = s.nextObserverId := by
  have hinit : initObserver jsonOk cfg s = s := by
    unfold initObserver
    rw [h1]
    rfl
  unfold register
  rw [hinit]
  refine ⟨?_, ?_, (foldRegister_const jsonOk cfg els s).1,
    (foldRegister_const jsonOk cfg els s).2⟩
  · rw [foldRegister_observer jsonOk cfg els s, h2]
    rfl
  · rw [foldRegister_elements jsonOk cfg els s, h1]
    rfl

/-- `register` on an instance whose roster already starts with `e0`:
`initObserver` constructs a brand-new observer (fresh identity) whose
options are computed from `e0`, and the call's attribute-bearing elements
are observed on that new observer; the roster still starts with `e0`. -/
theorem register_of_cons_roster (jsonOk : String → Bool)
    (cfg : AnimationConfig) (s : BaseState) (els : List HTMLElement)
    (e0 : HTMLElement) (h0 : s.elements.head? = some e0) :
    (register jsonOk cfg s els).observer
      = some { id := s.nextObserverId
               cfg := observerCfgFrom jsonOk cfg s.observerOptions e0
               observed := els.filter (fun e => hasAnimationAttributes cfg e) }
    ∧ (register jsonOk cfg s els).elements.head? = some e0
    ∧ (register jsonOk cfg s els).observerOptions
      = observerCfgFrom jsonOk cfg s.observerOptions e0
    ∧ (register jsonOk cfg s els).nextObserverId = s.nextObserverId + 1 := by
  have hinit : initObserver jsonOk cfg s =
      { s with observerOptions := observerCfgFrom jsonOk cfg s.observerOptions e0
               observer := some { id := s.nextObserverId
                                  cfg := observerCfgFrom jsonOk cfg s.observerOptions e0
                                  observed := [] }
               nextObserverId := s.nextObserverId + 1 } := by
    unfold initObserver
    rw [h0]
  unfold register
  rw [hinit]
  refine ⟨?_, ?_, ?_, ?_⟩
  · rw [foldRegister_observer]
    rfl
  · rw [foldRegister_elements]
    simp only [List.head?_append]
    cases hel : s.elements with
    | nil => rw [hel] at h0; exact absurd h0 (by simp)
    | cons a t => rw [hel] at h0; simpa using h0
  · rw [(foldRegister_const jsonOk cfg els _).1]
  · rw [(foldRegister_const jsonOk cfg els _).2]

/-- C1 counterexample element: carries offset and inview options. -/
def c1ElemA : HTMLElement :=
  ⟨10, [⟨"kw", "fade-in"⟩, ⟨"kw-offset-top", "-25%"⟩, ⟨"kw-inview", "50%"⟩], []⟩

/-- A second element with different offset and inview options. -/
def c1ElemB : HTMLElement :=
  ⟨11, [⟨"kw", "fade-in"⟩, ⟨"kw-offset-top", "30px"⟩, ⟨"kw-inview", "80%"⟩], []⟩

/-- The instance after its first `register` call. -/
def c1State1 : BaseState := register noJson DEFAULT_CONFIG baseDefaultState [c1ElemA]

/-- The instance after its second `register` call. -/
def c1State2 : BaseState := register noJson DEFAULT_CONFIG c1State1 [c1ElemB]

/-- The instance after its third `register` call. -/
def c1State3 : BaseState := register noJson DEFAULT_CONFIG c1State2 [c1ElemB]

/-- C1 counterexample: on a fresh `BaseAnimation` with default
configuration, the first registration (of an attribute-bearing element)
creates no observer at all, and the second and third registrations each
construct a distinct brand-new observer (identities 0 and then 1) — so
the observer is neither created lazily on the first registration nor
left unreconfigured afterwards. -/
theorem c1_observer_lifecycle_counterexample :
    c1State1.observer = none
    ∧ c1State1.elements = [c1ElemA]
    ∧ c1State2.observer.map Observer.id = some 0
    ∧ c1State3.observer.map Observer.id = some 1
    ∧ c1State2.observer.map (fun ob => ob.cfg.rootMargin)
      = some "-25% 0px 0px 0px" := by
  refine ⟨by decide, by decide, by decide, by decide, by decide⟩

/-- C1 (amended): no observer exists after the first registration of a
fresh instance (the roster is empty when the observer-init guard runs);
every registration on a nonempty roster replaces the observer with a
brand-new one (fresh identity, counted by `nextObserverId`) whose root
margin and threshold are computed by `observerCfgFrom` from the first
roster element's offset and inview options; since the first roster
element never changes, the geometry used for every observer of the
instance is the one derived from that first element. -/
theorem c1_observer_lifecycle_amended (jsonOk : String → Bool)
    (cfg : AnimationConfig) (s : BaseState) (els : List HTMLElement) :
    (s.elements = [] → s.observer = none →
      (register jsonOk cfg s els).observer = none)
    ∧ (∀ e0, s.elements.head? = some e0 →
        (register jsonOk cfg s els).observer
          = some { id := s.nextObserverId
                   cfg := observerCfgFrom jsonOk cfg s.observerOptions e0
                   observed := els.filter (fun e => hasAnimationAttributes cfg e) }
        ∧ (register jsonOk cfg s els).elements.head? = some e0
        ∧ (register jsonOk cfg s els).observerOptions
          = observerCfgFrom jsonOk cfg s.observerOptions e0) := by
  constructor
  · intro h1 h2
    exact (register_of_empty_roster jsonOk cfg s els h1 h2).1
  · intro e0 h0
    exact ⟨(register_of_cons_roster jsonOk cfg s els e0 h0).1,
      (register_of_cons_roster jsonOk cfg s els e0 h0).2.1,
      (register_of_cons_roster jsonOk cfg s els e0 h0).2.2.1⟩

/-- Witness for the amended C1 at a concrete input. -/
theorem c1_observer_lifecycle_amended_witness :
    (register noJson DEFAULT_CONFIG baseDefaultState [c1ElemA]).observer = none
    ∧ (register noJson DEFAULT_CONFIG c1State1 [c1ElemB]).elements.head? = some c1ElemA :=
  ⟨(c1_observer_lifecycle_amended noJson DEFAULT_CONFIG baseDefaultState [c1ElemA]).1
      rfl rfl,
   ((c1_observer_lifecycle_amended noJson DEFAULT_CONFIG c1State1 [c1ElemB]).2
      c1ElemA (by decide)).2.1⟩

/-! ## Claim C9 -/

/-- C9: on a fresh `BaseAnimation` instance, the first `register` call
creates no `IntersectionObserver` (the observer-init guard returns early
on the empty roster), every attribute-bearing element of that first call
is added to the roster and the options cache but observed by nothing; the
second `register` call constructs a brand-new observer (identity 0)
configured from the first roster element's options which observes exactly
the elements of the second call, and in general every `register` call on
a nonempty roster constructs a brand-new observer (fresh identity)
configured from the first roster element's options that observes only
that call's attribute-bearing elements. -/
theorem c9_first_register_unobserved (jsonOk : String → Bool)
    (cfg : AnimationConfig) (rm : String) (th : List ℚ)
    (els1 els2 : List HTMLElement) (e0 : HTMLElement)
    (h0 : els1.head? = some e0)
    (h1 : ∀ e ∈ els1, hasAnimationAttributes cfg e = true)
    (h2 : ∀ e ∈ els2, hasAnimationAttributes cfg e = true) :
    (register jsonOk cfg (initBaseState rm th) els1).observer = none
    ∧ (register jsonOk cfg (initBaseState rm th) els1).elements = els1
    ∧ (∀ e ∈ els1,
        getCache (register jsonOk cfg (initBaseState rm th) els1).parsedOptions e
          = some (getElementOptions jsonOk cfg e))
    ∧ (register jsonOk cfg (register jsonOk cfg (initBaseState rm th) els1) els2).observer
      = some { id := 0
               cfg := observerCfgFrom jsonOk cfg
                 (initBaseState rm th).observerOptions e0
               observed := els2 }
    ∧ (∀ (s : BaseState) (els : List HTMLElement) (e0' : HTMLElement),
        s.elements.head? = some e0' →
        (register jsonOk cfg s els).observer
          = some { id := s.nextObserverId
                   cfg := observerCfgFrom jsonOk cfg s.observerOptions e0'
                   observed := els.filter (fun e => hasAnimationAttributes cfg e) }) := by
  have hempty := register_of_empty_roster jsonOk cfg (initBaseState rm th) els1 rfl rfl
  have hfil1 : els1.filter (fun e => hasAnimationAttributes cfg e) = els1 :=
    List.filter_eq_self.mpr h1
  have hfil2 : els2.filter (fun e => hasAnimationAttributes cfg e) = els2 :=
    List.filter_eq_self.mpr h2
  have hels : (register jsonOk cfg (initBaseState rm th) els1).elements = els1 := by
    rw [hempty.2.1, hfil1]
  refine ⟨hempty.1, hels, ?_, ?_, ?_⟩
  · intro e he
    have hinit : initObserver jsonOk cfg (initBaseState rm th) = initBaseState rm th := by
      unfold initObserver
      rfl
    unfold register
    rw [hinit]
    exact foldRegister_cache_mem jsonOk cfg els1 e (initBaseState rm th) he (h1 e he)
  · have hh : (register jsonOk cfg (initBaseState rm th) els1).elements.head? = some e0 := by
      rw [hels, h0]
    have hcons := register_of_cons_roster jsonOk cfg
      (register jsonOk cfg (initBaseState rm th) els1) els2 e0 hh
    rw [hcons.1, hempty.2.2.1, hempty.2.2.2, hfil2]
    rfl
  · intro s els e0' h0'
    exact (register_of_cons_roster jsonOk cfg s els e0' h0').1

/-- Witness for C9 at concrete inputs. -/
theorem c9_first_register_unobserved_witness :
    (register noJson DEFAULT_CONFIG (initBaseState "0px" defaultThreshold) [c1ElemA]).observer = none
    ∧ (register noJson DEFAULT_CONFIG
        (register noJson DEFAULT_CONFIG (initBaseState "0px" defaultThreshold) [c1ElemA])
        [c1ElemB]).observer
      = some { id := 0
               cfg := observerCfgFrom noJson DEFAULT_CONFIG
                 (initBaseState "0px" defaultThreshold).observerOptions c1ElemA
               observed := [c1ElemB] } :=
  ⟨(c9_first_register_unobserved noJson DEFAULT_CONFIG "0px" defaultThreshold
      [c1ElemA] [c1ElemB] c1ElemA rfl (by decide) (by decide)).1,
   (c9_first_register_unobserved noJson DEFAULT_CONFIG "0px" defaultThreshold
      [c1ElemA] [c1ElemB] c1ElemA rfl (by decide) (by decide)).2.2.2.1⟩

/-! ## Claim C3: reset semantics of the fade and parallax variants -/

/-- An element's membership never survives filtering on being different
from it. -/
theorem not_mem_filter_ne (l : List String) (a : String) :
    a ∉ l.filter (fun c => c ≠ a) := by
  intro h
  have h2 := (List.mem_filter.mp h).2
  simp at h2

/-- Filtering preserves non-membership. -/
theorem not_mem_filter_of_not_mem (l : List String) (p : String → Bool)
    (a : String) (h : a ∉ l) : a ∉ l.filter p :=
  fun hc => h (List.mem_filter.mp hc).1

/-- C3 counterexample element: a fade element with no `repeat` option. -/
def c3NoRepeatElem : HTMLElement :=
  ⟨30, [⟨"kw", "fade-in"⟩, ⟨"kw-duration", "800"⟩], []⟩

/-- The parsed option record of `c3NoRepeatElem`. -/
def c3NoRepeatOpts : Options := getElementOptions noJson DEFAULT_CONFIG c3NoRepeatElem

/-- A fade element with `repeat` set and a numeric duration. -/
def c3RepeatElem : HTMLElement :=
  ⟨31, [⟨"kw", "fade-in"⟩, ⟨"kw-repeat", "true"⟩, ⟨"kw-from", "0"⟩,
        ⟨"kw-duration", "800"⟩], []⟩

/-- The parsed option record of `c3RepeatElem`. -/
def c3RepeatOpts : Options := getElementOptions noJson DEFAULT_CONFIG c3RepeatElem

/-- A fade element with `repeat` set whose `kw-duration=""` coerces to
boolean `true`, so its reset throws in `parseTimeValue`. -/
def c3BadDurElem : HTMLElement :=
  ⟨32, [⟨"kw", "fade-in"⟩, ⟨"kw-repeat", "true"⟩, ⟨"kw-duration", ""⟩], []⟩

/-- The parsed option record of `c3BadDurElem`. -/
def c3BadDurOpts : Options := getElementOptions noJson DEFAULT_CONFIG c3BadDurElem

/-- A fade element with `repeat` set whose `kw-from="[0.5]"` parses (under
genuine JSON parsing) to a structured array value; its reset writes the
array's string rendering `"0.5"` as the opacity. -/
def c3StructFromElem : HTMLElement :=
  ⟨33, [⟨"kw", "fade-in"⟩, ⟨"kw-repeat", "true"⟩, ⟨"kw-from", "[0.5]"⟩], []⟩

/-- The parsed option record of `c3StructFromElem`, under genuine JSON
parsing. -/
def c3StructFromOpts : Options :=
  getElementOptions jsonParses DEFAULT_CONFIG c3StructFromElem

/-- A concrete element visual state with a pending scheduled animation. -/
def c3Visual : FadeElemState := ⟨some "0", none, []⟩

/-- C3 counterexample: on an element whose `repeat` option is falsy, the
fade variant's reset is not a no-op — it cancels the pending scheduled
animation frame (the pending entry `some 5` becomes `none`), so a
registered element that entered and left the viewport before its
scheduled frames ran loses its animation. -/
theorem c3_reset_not_noop_counterexample :
    shouldRepeatAnimation c3NoRepeatOpts = false
    ∧ (fadeReset c3NoRepeatOpts c3Visual (some 5)).pending = none
    ∧ fadeReset c3NoRepeatOpts c3Visual (some 5) ≠ ⟨c3Visual, some 5, false, false⟩ := by
  refine ⟨by decide, by decide, by decide⟩

/-- C3 (amended): `reset` performs the inverse effect only when the
element's `repeat` option is truthy.  With `repeat` falsy the parallax
reset is a complete no-op and the fade reset leaves the element's visual
state (opacity, transition, classes) unchanged, only cancelling any
pending scheduled animation frame — so an element without `repeat`, once
animated (no frame pending), never reverts.  With `repeat` truthy the
parallax reset zeroes the transform and removes the active class; the
fade reset parses the duration, and when that value is a boolean or
structured one (reachable from markup such as `kw-duration=""`) the call
throws a `TypeError` and aborts with the element's visual state untouched,
while otherwise it fades back to the starting opacity and, once the
fade-out transition ends, removes the classes, after which the animate
guard no longer blocks re-animation on re-entry. -/
theorem c3_reset_amended :
    (∀ opts v, shouldRepeatAnimation opts = false → parallaxReset opts v = v)
    ∧ (∀ opts v p, shouldRepeatAnimation opts = false →
        fadeReset opts v p = ⟨v, none, false, false⟩)
    ∧ (∀ opts v, shouldRepeatAnimation opts = true →
        (parallaxReset opts v).transform = some "translate3d(0, 0, 0)"
        ∧ parallaxActiveClass ∉ (parallaxReset opts v).classes)
    ∧ (∀ opts v p, shouldRepeatAnimation opts = true →
        parseTimeValueV (jsOr (getOpt opts "duration") (.str "0.5s")) = .error () →
        fadeReset opts v p = ⟨v, none, false, true⟩)
    ∧ (∀ opts v p dur, shouldRepeatAnimation opts = true →
        parseTimeValueV (jsOr (getOpt opts "duration") (.str "0.5s")) = .ok dur →
        (fadeReset opts v p).visual.opacity
          = some (jsString ((getOpt opts "from").getD (.num 0)))
        ∧ (fadeReset opts v p).pending = none
        ∧ (fadeReset opts v p).handlerInstalled = true
        ∧ (fadeReset opts v p).threw = false
        ∧ (fadeReset opts v p).visual.classes = v.classes
        ∧ fadeActiveClass ∉ (fadeTransitionEnd opts (fadeReset opts v p).visual).classes
        ∧ fadeAnimateBlocked (fadeTransitionEnd opts (fadeReset opts v p).visual) none
          = false)
    ∧ (fadeReset c3StructFromOpts c3Visual none).visual.opacity = some "0.5" := by
  refine ⟨?_, ?_, ?_, ?_, ?_, by decide⟩
  · intro opts v h
    simp [parallaxReset, h]
  · intro opts v p h
    simp [fadeReset, h]
  · intro opts v h
    simp only [parallaxReset, h, if_true]
    constructor
    · split
      <;> first
        | rfl
        | (split <;> rfl)
    · split
      <;> first
        | exact not_mem_filter_ne v.classes parallaxActiveClass
        | (split <;> first
            | exact not_mem_filter_of_not_mem _ _ _
                (not_mem_filter_ne v.classes parallaxActiveClass)
            | exact not_mem_filter_ne v.classes parallaxActiveClass)
  · intro opts v p h herr
    simp [fadeReset, h, herr]
  · intro opts v p dur h hok
    have hnotmem :
        fadeActiveClass ∉ (fadeTransitionEnd opts (fadeReset opts v p).visual).classes := by
      simp only [fadeTransitionEnd]
      split
      <;> first
        | exact not_mem_filter_ne _ fadeActiveClass
        | (split <;> first
            | exact not_mem_filter_of_not_mem _ _ _
                (not_mem_filter_ne _ fadeActiveClass)
            | exact not_mem_filter_ne _ fadeActiveClass)
    refine ⟨by simp [fadeReset, h, hok], by simp [fadeReset, h, hok],
      by simp [fadeReset, h, hok], by simp [fadeReset, h, hok],
      by simp [fadeReset, h, hok], hnotmem, ?_⟩
    simp only [fadeAnimateBlocked, Option.isSome_none, Bool.or_false]
    simpa using hnotmem

/-- Witness for the amended C3 at concrete inputs: the repeat-gated
parallax branches, the fade success path on a numeric duration, and the
fade throw path on a boolean duration. -/
theorem c3_reset_amended_witness :
    shouldRepeatAnimation c3NoRepeatOpts = false
    ∧ parallaxReset c3NoRepeatOpts ⟨some "t", ["is-parallaxed"]⟩
      = ⟨some "t", ["is-parallaxed"]⟩
    ∧ shouldRepeatAnimation c3RepeatOpts = true
    ∧ (parallaxReset c3RepeatOpts ⟨some "t", ["is-parallaxed"]⟩).transform
      = some "translate3d(0, 0, 0)"
    ∧ (fadeReset c3RepeatOpts c3Visual (some 3)).handlerInstalled = true
    ∧ (fadeReset c3RepeatOpts c3Visual (some 3)).threw = false
    ∧ fadeReset c3BadDurOpts c3Visual none = ⟨c3Visual, none, false, true⟩ :=
  ⟨by decide,
   c3_reset_amended.1 c3NoRepeatOpts ⟨some "t", ["is-parallaxed"]⟩ (by decide),
   by decide,
   (c3_reset_amended.2.2.1 c3RepeatOpts ⟨some "t", ["is-parallaxed"]⟩ (by decide)).1,
   (c3_reset_amended.2.2.2.2.1 c3RepeatOpts c3Visual (some 3) (some 800)
      (by decide) (by decide)).2.2.1,
   (c3_reset_amended.2.2.2.2.1 c3RepeatOpts c3Visual (some 3) (some 800)
      (by decide) (by decide)).2.2.2.1,
   c3_reset_amended.2.2.2.1 c3BadDurOpts c3Visual none (by decide) (by decide)⟩

/-! ## Claim C6: the parallax translation -/

/-- The C6 scenario element `<div kw="parallax" kw-speed="0.5"
kw-direction="up">`. -/
def c6Elem : HTMLElement :=
  ⟨6, [⟨"kw", "parallax"⟩, ⟨"kw-speed", "0.5"⟩, ⟨"kw-direction", "up"⟩], []⟩

/-- The parsed option record of the C6 element. -/
def c6Opts : Options := getElementOptions noJson DEFAULT_CONFIG c6Elem

/-- Concrete value of the C6 option record. -/
theorem c6Opts_eval :
    c6Opts = [("speed", .num (mkRat 1 2)), ("direction", .str "up")] := by
  decide

/-- Closed form of the C6 vertical offset: with speed `0.5`, direction
`up` and the module defaults `start = -0.5`, `end = 1`, the translation
is `H/2 * (1/2 - progress)` on the y axis. -/
theorem c6_offset_formula (H p : ℚ) :
    applyParallaxOffset c6Opts (-(1/2)) 1 H p
      = (.y, some (H/2 * (1/2 - p))) := by
  rw [c6Opts_eval]
  have key : applyParallaxOffset
        [("speed", AttrValue.num (mkRat 1 2)), ("direction", AttrValue.str "up")]
        (-(1/2)) 1 H p
      = (.y, some ((mkRat 1 2 * H * (-(1/2)) + p * mkRat 1 2 * H * 1) * (-1))) := rfl
  rw [key]
  have hmk : (mkRat 1 2 : ℚ) = 1/2 := by
    rw [Rat.mkRat_eq_div]
    norm_num
  rw [hmk]
  congr 1
  congr 1
  ring

/-- C6 counterexample: for the element `<div kw="parallax" kw-speed="0.5"
kw-direction="up">` at window height 800, the applied vertical offset at
progress 0 is `+200` (a positive, downward offset — not negative), and at
progress `1/4` it is `+100`, whose magnitude is smaller — so the
magnitude does not increase monotonically with progress and the offset is
not always negative. -/
theorem c6_parallax_counterexample :
    parseElementOptions noJson DEFAULT_CONFIG c6Elem = some ⟨"parallax", c6Opts⟩
    ∧ applyParallaxOffset c6Opts (-(1/2)) 1 800 0 = (.y, some 200)
    ∧ applyParallaxOffset c6Opts (-(1/2)) 1 800 (1/4) = (.y, some 100)
    ∧ (0 : ℚ) < 200
    ∧ |(100 : ℚ)| < |(200 : ℚ)| := by
  refine ⟨by decide, ?_, ?_, by norm_num, by norm_num⟩
  · rw [c6_offset_formula]
    norm_num
  · rw [c6_offset_formula]
    norm_num

/-- C6 (amended): for the scenario element the vertical offset equals
`H/2 * (1/2 - progress)` — an affine, strictly *decreasing* function of
progress (so the element moves continuously upward as progress grows,
which is what direction `up` means), positive (downward displacement)
while progress is below `1/2`, zero at the viewport centre, and negative
(upward displacement) beyond it; its magnitude is V-shaped around
progress `1/2`, not monotonically increasing. -/
theorem c6_parallax_amended :
    (∀ H p : ℚ, applyParallaxOffset c6Opts (-(1/2)) 1 H p
        = (.y, some (H/2 * (1/2 - p))))
    ∧ (∀ H p₁ p₂ : ℚ, 0 < H → p₁ < p₂ →
        ((applyParallaxOffset c6Opts (-(1/2)) 1 H p₂).2.getD 0)
          < ((applyParallaxOffset c6Opts (-(1/2)) 1 H p₁).2.getD 0))
    ∧ (∀ H p : ℚ, 0 < H → 1/2 < p →
        ((applyParallaxOffset c6Opts (-(1/2)) 1 H p).2.getD 0) < 0)
    ∧ (∀ H p : ℚ, 0 < H → p < 1/2 →
        0 < ((applyParallaxOffset c6Opts (-(1/2)) 1 H p).2.getD 0)) := by
  refine ⟨c6_offset_formula, ?_, ?_, ?_⟩
  · intro H p₁ p₂ hH hp
    rw [c6_offset_formula, c6_offset_formula]
    simp only [Option.getD_some]
    have h2 : (0 : ℚ) < H/2 := by linarith
    have h3 : (1/2 - p₂ : ℚ) < 1/2 - p₁ := by linarith
    exact mul_lt_mul_of_pos_left h3 h2
  · intro H p hH hp
    rw [c6_offset_formula]
    simp only [Option.getD_some]
    have h2 : (0 : ℚ) < H/2 := by linarith
    have h3 : (1/2 - p : ℚ) < 0 := by linarith
    exact mul_neg_of_pos_of_neg h2 h3
  · intro H p hH hp
    rw [c6_offset_formula]
    simp only [Option.getD_some]
    have h2 : (0 : ℚ) < H/2 := by linarith
    have h3 : (0 : ℚ) < 1/2 - p := by linarith
    exact mul_pos h2 h3

/-- Witness for the amended C6 at concrete inputs. -/
theorem c6_parallax_amended_witness :
    applyParallaxOffset c6Opts (-(1/2)) 1 800 (3/4) = (.y, some (-100))
    ∧ (0 : ℚ) < 800
    ∧ (1 : ℚ)/2 < 3/4
    ∧ ((applyParallaxOffset c6Opts (-(1/2)) 1 800 (3/4)).2.getD 0) < 0 :=
  ⟨by rw [c6_parallax_amended.1 800 (3/4)]; norm_num,
   by norm_num, by norm_num,
   c6_parallax_amended.2.2.1 800 (3/4) (by norm_num) (by norm_num)⟩

/-! ## Claim C7: what `AnimationManager.destroy` cancels -/

/-- C7 counterexample: `init()` schedules the one-shot post-init re-scan
timer (identity 0) without recording its handle; after `destroy()` that
timer is still pending — so not every timer scheduled before the call is
cancelled. -/
theorem c7_postinit_timer_survives_destroy :
    (managerInit noJson DEFAULT_CONFIG initManagerState [] false).pendingTimers = [0]
    ∧ (managerDestroy (managerInit noJson DEFAULT_CONFIG initManagerState [] false)).pendingTimers
      = [0] := by
  refine ⟨by decide, by decide⟩

/-- C7 (amended): `destroy()` cancels the recorded mutation-debounce
timer, disconnects the mutation watcher, clears the registry, drops the
lifecycle flag and releases the shared resize listener — but it cancels
*only* the debounce timer: when no debounce timer is recorded the pending
timer set is untouched, so the post-init re-scan timer scheduled by
`init()` (whose handle is never stored) stays pending.  Its callback is
however a no-op after `destroy`, because a dynamic re-scan on an
uninitialized manager does nothing. -/
theorem c7_destroy_amended (jsonOk : String → Bool) (cfg : AnimationConfig)
    (s : ManagerState) (doc : List HTMLElement) (rm : Bool) :
    (managerDestroy s).loadTimeout = none
    ∧ (∀ t, s.loadTimeout = some t → t ∉ (managerDestroy s).pendingTimers)
    ∧ (managerDestroy s).mutationObserverActive = false
    ∧ (managerDestroy s).registry = []
    ∧ (managerDestroy s).initialized = false
    ∧ (managerDestroy s).resizeAttached = false
    ∧ (s.loadTimeout = none → (managerDestroy s).pendingTimers = s.pendingTimers)
    ∧ managerDynamicRescan jsonOk cfg (managerDestroy s) doc rm = managerDestroy s := by
  have hrescan : ∀ s' : ManagerState, s'.initialized = false →
      managerDynamicRescan jsonOk cfg s' doc rm = s' := by
    intro s' hs'
    simp [managerDynamicRescan, hs']
  have hinit : (managerDestroy s).initialized = false := by
    unfold managerDestroy
    cases s.loadTimeout <;> rfl
  refine ⟨?_, ?_, ?_, ?_, hinit, ?_, ?_, hrescan _ hinit⟩
  · unfold managerDestroy
    cases hl : s.loadTimeout <;> simp [hl]
  · intro t ht
    unfold managerDestroy
    rw [ht]
    simp [List.mem_filter]
  · unfold managerDestroy
    cases s.loadTimeout <;> rfl
  · unfold managerDestroy
    cases s.loadTimeout <;> rfl
  · unfold managerDestroy
    cases s.loadTimeout <;> rfl
  · intro hnone
    unfold managerDestroy
    rw [hnone]

/-- A sample manager state with a recorded debounce timer. -/
def c7SampleState : ManagerState :=
  { initManagerState with loadTimeout := some 3, pendingTimers := [2, 3],
                          nextTimerId := 4, initialized := true }

/-- Witness for the amended C7 at a concrete input. -/
theorem c7_destroy_amended_witness :
    (3 ∉ (managerDestroy c7SampleState).pendingTimers)
    ∧ (managerDestroy c7SampleState).loadTimeout = none :=
  ⟨(c7_destroy_amended noJson DEFAULT_CONFIG c7SampleState [] false).2.1 3 rfl,
   (c7_destroy_amended noJson DEFAULT_CONFIG c7SampleState [] false).1⟩

/-! ## Claim C8: the manager's lifecycle surface -/

/-- C8: the `AnimationManager` class declares no `update` method — its
public surface is `use`, `updateConfig`, `registerModule`, `getModule`,
`init` and `destroy` — although the repository's README documents
`animationManager.update()` as the manual re-scan trigger.  Calling the
documented `update()` would therefore fail; the claimed three-operation
lifecycle surface `init`/`update`/`destroy` does not exist in the code. -/
theorem c8_update_method_missing :
    ("update" ∉ AnimationManager.publicMethods)
    ∧ "init" ∈ AnimationManager.publicMethods
    ∧ "destroy" ∈ AnimationManager.publicMethods := by
  refine ⟨by decide, by decide, by decide⟩

/-! ## Claim C10: the parallax scroll listener survives `destroy` -/

/-- C10: on a parallax instance with no scroll listener yet, `register`
attaches a listener whose function identity is the current fresh-bind
counter value; `destroy` then calls `removeEventListener` with a *new*
freshly bound copy of `handleScroll` (a different function identity), so
the originally attached listener is still installed afterwards, while the
instance's attached-flag is cleared and the pending animation frame is
cancelled. -/
theorem c10_scroll_listener_survives_destroy (jsonOk : String → Bool)
    (cfg : AnimationConfig) (w : ScrollWorld) (s : ParallaxState)
    (els : List HTMLElement) (h : s.scrollListenerAttached = false) :
    (parallaxRegister jsonOk cfg w s els).1.scrollListeners
      = w.scrollListeners ++ [w.nextFnId]
    ∧ (parallaxRegister jsonOk cfg w s els).2.scrollListenerAttached = true
    ∧ w.nextFnId ∈ (parallaxDestroy (parallaxRegister jsonOk cfg w s els).1
        (parallaxRegister jsonOk cfg w s els).2).1.scrollListeners
    ∧ (parallaxDestroy (parallaxRegister jsonOk cfg w s els).1
        (parallaxRegister jsonOk cfg w s els).2).2.scrollListenerAttached = false
    ∧ (parallaxDestroy (parallaxRegister jsonOk cfg w s els).1
        (parallaxRegister jsonOk cfg w s els).2).2.rafId = none := by
  have hreg : parallaxRegister jsonOk cfg w s els
      = (⟨w.scrollListeners ++ [w.nextFnId], w.nextFnId + 1⟩,
         { base := register jsonOk cfg s.base els,
           scrollListenerAttached := true, rafId := s.rafId }) := by
    unfold parallaxRegister
    rw [h]
    rfl
  rw [hreg]
  have hdes : parallaxDestroy
        ⟨w.scrollListeners ++ [w.nextFnId], w.nextFnId + 1⟩
        { base := register jsonOk cfg s.base els,
          scrollListenerAttached := true, rafId := s.rafId }
      = (⟨(w.scrollListeners ++ [w.nextFnId]).filter (fun t => t ≠ w.nextFnId + 1),
          w.nextFnId + 2⟩,
         { base := baseDestroy (register jsonOk cfg s.base els),
           scrollListenerAttached := false, rafId := none }) := by
    unfold parallaxDestroy
    rfl
  rw [hdes]
  refine ⟨rfl, rfl, ?_, rfl, rfl⟩
  apply List.mem_filter.mpr
  constructor
  · exact List.mem_append_right _ (by simp)
  · simp

/-- Witness for C10 at a concrete input. -/
theorem c10_scroll_listener_survives_destroy_witness :
    initParallaxState.scrollListenerAttached = false
    ∧ 0 ∈ (parallaxDestroy
        (parallaxRegister noJson DEFAULT_CONFIG ⟨[], 0⟩ initParallaxState []).1
        (parallaxRegister noJson DEFAULT_CONFIG ⟨[], 0⟩ initParallaxState []).2).1.scrollListeners :=
  ⟨rfl,
   (c10_scroll_listener_survives_destroy noJson DEFAULT_CONFIG ⟨[], 0⟩
      initParallaxState [] rfl).2.2.1⟩

end Vektor
